import Mathlib

/-!
Verification of the room/phase/scoring logic of the social-deduction game server
in `src/index.js`.

The JavaScript source is embedded shallowly:

* plain JS objects become Lean structures; fields that the source sometimes
  leaves `undefined` are modelled with their falsy defaults (`false`, `none`);
* the mutable room is threaded explicitly: each socket handler becomes a pure
  function from the room (plus the event payload) to the updated room;
* a handler that can throw an uncaught `TypeError` returns `Except String`;
* `Math.random`-driven choices (the role shuffle) are passed in as explicit
  permutation arguments, with a `List.Perm` hypothesis where a theorem needs it;
* the `setInterval`/`clearInterval` handle discipline is modelled by a small
  transition system (`TimerSt`) whose events correspond one-to-one to the code
  sites that touch `room.timerInterval`.

Line numbers in the doc comments refer to `src/index.js`.
-/

namespace Sanat

/-- Role of a player within a round (`'innocent'` / `'impostor'` in the source). -/
inductive Role where
  | innocent
  | impostor
deriving DecidableEq, Repr

/-- Game phases, from the `PHASE` constant (lines 35-43). `viewing` is declared in
the source but never entered; it is kept for fidelity. -/
inductive Phase where
  | lobby
  | viewing
  | writing
  | discussing
  | voting
  | results
  | matchEnd
deriving DecidableEq, Repr

/-- Winner tag emitted by `calculateResults` (lines 440-458). -/
inductive Winner where
  | innocents
  | impostor
deriving DecidableEq, Repr

/-- A player object (created at lines 547 and 580).  Socket ids are modelled as
naturals.  Fields the source leaves `undefined` on some paths (`isReady`,
`isOwner`, `isOffline`, the skip flags) default to their falsy value. -/
structure Player where
  id : Nat
  username : String
  score : Nat := 0
  role : Option Role := none
  word : Option String := none
  vote : Option Nat := none
  isReady : Bool := false
  isOffline : Bool := false
  hasSkipped : Bool := false
  hasSkippedDiscussion : Bool := false
  isOwner : Bool := false
deriving DecidableEq, Repr

/-- `room.state` (created at line 543). -/
structure RoomState where
  phase : Phase := Phase.lobby
  timer : Nat := 0
  currentRound : Nat := 0
  turnOrder : List Nat := []
  turnIndex : Nat := 0
  winnerAwardSent : Bool := false
deriving DecidableEq, Repr

/-- A room (created at lines 537-544).  The `timerInterval` handle lives in the
separate `TimerSt` model. -/
structure Room where
  code : String
  players : List Player := []
  ownerId : Nat
  isPublic : Bool := true
  rounds : Nat := 5
  state : RoomState := {}
deriving DecidableEq, Repr

/-- JS `String.prototype.toLowerCase()` restricted to the characters the claims
exercise: lowercase every character.  (Defined on the underlying character list
so that it evaluates inside the kernel.) -/
def lowerStr (s : String) : String := String.mk (s.data.map Char.toLower)

/-- JS `String.prototype.trim()`: strip leading and trailing whitespace.
(Defined on the underlying character list so that it evaluates inside the
kernel.) -/
def trimStr (s : String) : String :=
  String.mk
    (((s.data.dropWhile fun c => c.isWhitespace).reverse.dropWhile
        fun c => c.isWhitespace).reverse)

/-- Update the first list element satisfying the predicate — the JS idiom
`players.find(...)` followed by a mutation of the found object. -/
def updateFirst (f : Player → Player) (q : Player → Bool) : List Player → List Player
  | [] => []
  | p :: ps => if q p then f p :: ps else p :: updateFirst f q ps

/-- The quorum population `players.filter(p => p.role && !p.isOffline)` used by
the `submit_vote`, `skip_discussion` and `skip_match_end` handlers. -/
def activeOnline (ps : List Player) : List Player :=
  ps.filter (fun p => p.role.isSome && !p.isOffline)

/-- `Math.max(...)` over a list of naturals (all scores are nonnegative, and the
call sites only use it on nonempty lists, where `foldr max 0` agrees). -/
def listMax (l : List Nat) : Nat := l.foldr max 0

/-- `awardMatchWinners` (lines 104-116): a one-shot, `winnerAwardSent`-guarded
award of every player tied at the maximum score.  The second component is the
list of usernames for which an actual webhook request is issued: the function
calls `notifyVecbotWinner(username.trim())` per winner, and `notifyVecbotWinner`
(line 81) returns without any request when the trimmed username is empty. -/
def awardMatchWinners (r : Room) : Room × List String :=
  if r.state.winnerAwardSent then (r, [])
  else if r.players.isEmpty then (r, [])
  else
    let maxScore := listMax (r.players.map (fun p => p.score))
    let winners := r.players.filter (fun p => p.score == maxScore)
    if winners.isEmpty then (r, [])
    else
      ({ r with state := { r.state with winnerAwardSent := true } },
       winners.filterMap (fun w =>
         let u := trimStr w.username
         if u = "" then none else some u))

/-- The fresh room installed by the `create_room` handler (lines 535-548),
including the creator's player object with `isOwner := true`. -/
def freshRoom (code : String) (sid : Nat) (username : String) (pub : Bool)
    (rnds : Nat) : Room :=
  { code := code
    players := [{ id := sid, username := username, isReady := false, isOwner := true }]
    ownerId := sid
    isPublic := pub
    rounds := rnds
    state := {} }

/-- JS object-key assignment `rooms[code] = r`: replace an existing binding for
the key, or append a new one. -/
def insertReplace (regs : List (String × Room)) (c : String) (r : Room) :
    List (String × Room) :=
  if regs.any (fun kv => kv.1 == c) then
    regs.map (fun kv => if kv.1 == c then (c, r) else kv)
  else regs ++ [(c, r)]

/-- Registry effect of the `create_room` handler (lines 535-560): the freshly
generated code (randomness passed in as `code`) is bound unconditionally, with
no lookup of a possibly existing room under that code. -/
def createRoomReg (regs : List (String × Room)) (code : String) (sid : Nat)
    (username : String) (pub : Bool) (rnds : Nat) : List (String × Room) :=
  insertReplace regs code (freshRoom code sid username pub rnds)

/-- Registry lookup `rooms[code]`. -/
def lookupReg (regs : List (String × Room)) (c : String) : Option Room :=
  (regs.find? (fun kv => kv.1 == c)).map (fun kv => kv.2)

/-- The vote-tally fold of `calculateResults` (lines 423-435): the `votes`
object as a function, the running maximum, and the running accused.  The fold
runs over the votes in roster order (players without a vote are skipped by the
source, hence the caller passes `filterMap vote`). -/
def tallyStep (st : (Nat → Nat) × Nat × Option Nat) (t : Nat) :
    (Nat → Nat) × Nat × Option Nat :=
  let c := st.1 t + 1
  let counts := fun u => if u = t then c else st.1 u
  if st.2.1 < c then (counts, c, some t) else (counts, st.2.1, st.2.2)

/-- The whole tally loop: fold `tallyStep` over the cast votes. -/
def tallyVotes (l : List Nat) : (Nat → Nat) × Nat × Option Nat :=
  l.foldl tallyStep (fun _ => 0, 0, none)

/-- The votes actually cast, in roster order. -/
def voteList (ps : List Player) : List Nat := ps.filterMap (fun p => p.vote)

/-- `votedPlayerId` at the end of the tally loop. -/
def accusedIdOf (ps : List Player) : Option Nat := (tallyVotes (voteList ps)).2.2

/-- `impostor.score += d` where `impostor = players.find(p => p.role === 'impostor')`:
bump the first impostor's score, leave everything else alone (no-op when the
list has no impostor, matching the `if (impostor)` guard at line 455). -/
def addToFirstImpostor (d : Nat) : List Player → List Player
  | [] => []
  | p :: ps =>
    if p.role == some Role.impostor then { p with score := p.score + d } :: ps
    else p :: addToFirstImpostor d ps

/-- `calculateResults` (lines 421-468), scoring core: resolve the accused, then
either award +20 to every voter whose vote targeted the first-listed impostor
(winner innocents) or award `30 + 10 * players.length` to that impostor
(winner impostor). -/
def calculateResults (ps : List Player) : List Player × Winner :=
  let votedPlayer := (accusedIdOf ps).bind (fun i => ps.find? (fun p => p.id == i))
  let imp := ps.find? (fun p => p.role == some Role.impostor)
  match votedPlayer with
  | some vp =>
    if vp.role == some Role.impostor then
      (ps.map (fun p =>
         if imp.any (fun m => p.vote == some m.id) then
           { p with score := p.score + 20 }
         else p),
       Winner.innocents)
    else (addToFirstImpostor (30 + ps.length * 10) ps, Winner.impostor)
  | none => (addToFirstImpostor (30 + ps.length * 10) ps, Winner.impostor)

/-- Pure projection of `setPhase` (lines 150-176): the phase/timer fields.  The
interval-handle side is modelled by `TimerSt` below. -/
def setPhasePure (r : Room) (ph : Phase) (d : Nat) : Room :=
  { r with state := { r.state with phase := ph, timer := d } }

/-- Room-level effect of `calculateResults` (lines 460-467): updated scores,
then `setPhase(room, RESULTS, 5)`. -/
def calcResultsRoom (r : Room) : Room :=
  setPhasePure { r with players := (calculateResults r.players).1 } Phase.results 5

/-- `submit_vote` handler (lines 656-673).  A wrong phase is a silent no-op (the
source also no-ops on an unknown room code, before this function is reached).
A sender that is not a player of the room reaches `player.vote = targetId` with
`player` undefined: an uncaught `TypeError`, modelled as `Except.error`.
Otherwise the vote is recorded and the two quorum checks may fire the tally. -/
def submitVote (r : Room) (sid target : Nat) : Except String Room :=
  if r.state.phase != Phase.voting then Except.ok r
  else
    match r.players.find? (fun p => p.id == sid) with
    | none => Except.error "TypeError: cannot set property vote of undefined"
    | some _ =>
      let ps := updateFirst (fun p => { p with vote := some target })
        (fun p => p.id == sid) r.players
      let r2 := { r with players := ps }
      let act := activeOnline ps
      if !act.isEmpty && act.all (fun p => p.vote.isSome) then
        Except.ok (calcResultsRoom r2)
      else if act.isEmpty then Except.ok (calcResultsRoom r2)
      else Except.ok r2

/-- The player object built by the `join_room` handler (line 580): per-round
fields at their defaults, no owner flag. -/
def joinPlayer (sid : Nat) (username : String) : Player :=
  { id := sid, username := username, score := 0, role := none, word := none, vote := none }

/-- `join_room` handler (lines 562-597) applied to an existing room.  Order of
checks as in the source: hard cap of 12 first, then the duplicate-name check
`p.username.toLowerCase() === username.trim().toLowerCase()` (the requested
name is trimmed, existing names are not), then the append of a fresh player
with all per-round fields at their defaults.  The room's phase is never
consulted, and nothing besides `players` is touched on success. -/
def joinRoom (r : Room) (sid : Nat) (username : String) : Except String Room :=
  if 12 ≤ r.players.length then Except.error "room_full"
  else if r.players.any (fun p => lowerStr p.username == lowerStr (trimStr username)) then
    Except.error "username_taken"
  else
    Except.ok { r with players := r.players ++ [joinPlayer sid username] }

/-- Modelled from the spec's words for claim C5: a case-insensitive collision
between the requested username and an existing player's username — lowercasing
only, no trimming.  Compared against the source's check inside `joinRoom`. -/
def collidesCaseInsensitive (ps : List Player) (username : String) : Bool :=
  ps.any (fun p => lowerStr p.username == lowerStr username)

/-- `toggle_ready` handler (lines 722-746): LOBBY-only; flips the sender's
flag, then either starts the 4-second countdown (everyone ready, at least two
players) or cancels a running countdown. -/
def toggleReady (r : Room) (sid : Nat) : Room :=
  if r.state.phase != Phase.lobby then r
  else
    match r.players.find? (fun p => p.id == sid) with
    | none => r
    | some _ =>
      let ps := updateFirst (fun p => { p with isReady := !p.isReady })
        (fun p => p.id == sid) r.players
      let r2 := { r with players := ps }
      if decide (2 ≤ ps.length) && ps.all (fun p => p.isReady) then
        setPhasePure r2 Phase.lobby 4
      else if 0 < r2.state.timer then setPhasePure r2 Phase.lobby 0
      else r2

/-- `skip_discussion` handler (lines 675-696), pure core.  Both quorum branches
of the source (`every skipped` and the empty-quorum failsafe) move to
VOTING(30); they are merged into one disjunction here. -/
def skipDiscussion (r : Room) (sid : Nat) : Room :=
  if r.state.phase != Phase.discussing then r
  else
    match r.players.find? (fun p => p.id == sid) with
    | none => r
    | some p =>
      if p.hasSkippedDiscussion then r
      else
        let ps := updateFirst (fun q => { q with hasSkippedDiscussion := true })
          (fun q => q.id == sid) r.players
        let r2 := { r with players := ps }
        let act := activeOnline ps
        if (!act.isEmpty && act.all (fun q => q.hasSkippedDiscussion)) || act.isEmpty then
          setPhasePure r2 Phase.voting 30
        else r2

/-- `startTurn` (lines 375-414), pure state core: with the turn order
exhausted, move to DISCUSSING(120) and reset the discussion-skip flags;
a seated writer who left the roster or is offline is skipped by recursing on
the next index; otherwise the 30-second turn starts (`state.timer := 30`; the
interval handle lives in `TimerSt`). -/
def startTurn (r : Room) : Room :=
  if h : r.state.turnOrder.length ≤ r.state.turnIndex then
    let r2 := setPhasePure r Phase.discussing 120
    { r2 with players := r2.players.map (fun p => { p with hasSkippedDiscussion := false }) }
  else
    let wid := r.state.turnOrder.get ⟨r.state.turnIndex, by omega⟩
    match r.players.find? (fun p => p.id == wid) with
    | none => startTurn { r with state := { r.state with turnIndex := r.state.turnIndex + 1 } }
    | some w =>
      if w.isOffline then
        startTurn { r with state := { r.state with turnIndex := r.state.turnIndex + 1 } }
      else { r with state := { r.state with timer := 30 } }
termination_by r.state.turnOrder.length - r.state.turnIndex
decreasing_by
  all_goals omega

/-- `advanceTurn` (lines 416-419). -/
def advanceTurn (r : Room) : Room :=
  startTurn { r with state := { r.state with turnIndex := r.state.turnIndex + 1 } }

/-- `disconnect` handler (lines 769-827), pure core, for the room that contains
the vanished socket.  LOBBY: remove the player and re-evaluate the auto-start
countdown.  Any other phase: mark the player offline and, only if the phase is
WRITING and the player was the seated writer, advance the turn.  Then the
common tail: delete the room (`none`) when no online players remain, otherwise
transfer ownership to the first online player if the owner left. -/
def onDisconnect (r : Room) (sid : Nat) : Option Room :=
  let r1 :=
    if r.state.phase == Phase.lobby then
      let ps := r.players.filter (fun p => !(p.id == sid))
      let ra := { r with players := ps }
      if decide (2 ≤ ps.length) && ps.all (fun p => p.isReady) then
        setPhasePure ra Phase.lobby 4
      else if 0 < r.state.timer then setPhasePure ra Phase.lobby 0
      else ra
    else
      let psb := updateFirst (fun p => { p with isOffline := true })
        (fun p => p.id == sid) r.players
      let rb := { r with players := psb }
      if r.state.phase == Phase.writing
          && (r.state.turnOrder.get? r.state.turnIndex == some sid) then
        advanceTurn rb
      else rb
  let online := r1.players.filter (fun p => !p.isOffline)
  if online.isEmpty then none
  else if r1.ownerId == sid then
    match online.head? with
    | none => some r1
    | some q =>
      let ps2 := updateFirst (fun p => { p with isOwner := true })
        (fun p => p.id == q.id) r1.players
      let ps3 := updateFirst (fun p => { p with isOwner := false })
        (fun p => p.id == sid) ps2
      some { r1 with ownerId := q.id, players := ps3 }
  else some r1

/-- Offline purge at round rollover (line 266). -/
def purgeOffline (ps : List Player) : List Player := ps.filter (fun p => !p.isOffline)

/-- Per-round field reset (lines 279-284). -/
def roundReset (p : Player) : Player :=
  { p with role := none, word := none, vote := none, isReady := true }

/-- Dynamic impostor count (line 325): two impostors from 8 players, else one. -/
def impostorCountFor (n : Nat) : Nat := if 8 ≤ n then 2 else 1

/-- Role assignment of `nextRound` (lines 322-338).  `shuffled` is the random
permutation `[...room.players].sort(() => Math.random() - 0.5)` (passed in
explicitly; theorems assume it is a permutation of the purged roster).  The
source first resets the per-round fields, sets every role to innocent, then
overwrites the role of the first `impostorCount` entries of the shuffle — so a
roster player ends up impostor exactly when their id is among the ids of those
entries. -/
def assignRoles (ps shuffled : List Player) : List Player :=
  let k := impostorCountFor ps.length
  let impIds := (shuffled.take k).map (fun p => p.id)
  ps.map (fun p =>
    if impIds.contains p.id then { roundReset p with role := some Role.impostor }
    else { roundReset p with role := some Role.innocent })

/-- `nextRound` (lines 264-359), roster core: purge offline players, abort to
LOBBY (`none`) with fewer than two players remaining, otherwise assign roles.
Art caching, broadcasts and the timer are outside this function. -/
def nextRoundRoles (ps shuffled : List Player) : Option (List Player) :=
  let a := purgeOffline ps
  if a.length < 2 then none else some (assignRoles a shuffled)

/-- Bookkeeping for `setInterval`/`clearInterval` handles of one room:
`live` is the list of interval ids currently scheduled, `stored` is the
`room.timerInterval` field (JS `clearInterval` does not null the variable),
`next` is the fresh-id supply. -/
structure TimerSt where
  live : List Nat
  stored : Option Nat
  next : Nat
deriving DecidableEq, Repr

/-- `if (room.timerInterval) clearInterval(room.timerInterval)`: de-schedule the
stored handle (no-op when nothing is stored). -/
def clearStored (s : TimerSt) : TimerSt :=
  match s.stored with
  | none => s
  | some h => { s with live := s.live.erase h }

/-- `room.timerInterval = setInterval(...)`: schedule a fresh interval and store
its handle. -/
def armNew (s : TimerSt) : TimerSt :=
  { live := s.next :: s.live, stored := some s.next, next := s.next + 1 }

/-- The timer actions the source performs, one constructor per kind of code
site: `runSetPhase d` is `setPhase` (clear at line 155, arm at line 163 only
when `d > 0`); `runStartTurn` is the arming branch of `startTurn` (clear at
line 404, arm at line 405); `runClear` is a bare guarded `clearInterval`
(kick line 629, submit-timeout self-clear path, disconnect line 798, admin
line 760); `expireTick` is an armed interval reaching zero and clearing itself
(lines 167, 408) before its phase handler runs. -/
inductive TimerEv where
  | runSetPhase (d : Nat)
  | runStartTurn
  | runClear
  | expireTick

/-- One timer action. -/
def timerStep (s : TimerSt) : TimerEv → TimerSt
  | TimerEv.runSetPhase d => let s2 := clearStored s; if 0 < d then armNew s2 else s2
  | TimerEv.runStartTurn => armNew (clearStored s)
  | TimerEv.runClear => clearStored s
  | TimerEv.expireTick => clearStored s

/-- A room starts with no interval; any reachable timer state is a fold of
timer actions over that start state. -/
def timerRun (evs : List TimerEv) : TimerSt :=
  evs.foldl timerStep { live := [], stored := none, next := 0 }

/-- The timer invariant: at most one live interval, the stored field references
any live interval, and live ids are below the fresh supply. -/
def timerInv (s : TimerSt) : Prop :=
  s.live.length ≤ 1 ∧ (∀ h ∈ s.live, s.stored = some h) ∧ ∀ h ∈ s.live, h < s.next

/-- The maximum final vote count of a vote list (0 when no votes were cast). -/
def maxVotes (l : List Nat) : Nat := (l.map fun t => l.count t).foldr max 0

/-- Modelled from the spec's words for claim C1: "ties broken by the first
target to reach the running maximum during a single pass" — scanning the vote
list left to right with `acc` the votes already seen, return the target at the
first position whose running count reaches `m`. -/
def firstToHit (m : Nat) : List Nat → List Nat → Option Nat
  | _, [] => none
  | acc, t :: rest =>
    if acc.count t + 1 = m then some t else firstToHit m (acc ++ [t]) rest

/-- The tally state determined by a processed vote prefix: its counts, its
maximum count, and the first target to have reached that maximum. -/
def statOf (pre : List Nat) : (Nat → Nat) × Nat × Option Nat :=
  (fun t => pre.count t, maxVotes pre, firstToHit (maxVotes pre) [] pre)

/-- The +20 update of the innocents branch (lines 448-450), relative to the
first-listed impostor `m`: a player gains exactly 20 points iff their vote
targeted `m`. -/
def scoreDelta20 (m p : Player) : Player :=
  if p.vote == some m.id then { p with score := p.score + 20 } else p

/-! ## Concrete fixtures used by witnesses and counterexamples -/

/-- An impostor who votes for themselves. -/
def pImp : Player := { id := 1, username := "imp", role := some Role.impostor, vote := some 1 }

/-- An innocent who votes for the impostor. -/
def pInn : Player := { id := 2, username := "inn", role := some Role.innocent, vote := some 1 }

/-- A room whose only (and hence top-scoring) player has a whitespace username. -/
def rBlankWinner : Room := { code := "RX", ownerId := 1, players := [{ id := 1, username := " " }] }

/-- A room in VOTING with a single seated player; socket 99 is not a player. -/
def rIntruder : Room :=
  { code := "VOTER", ownerId := 1,
    players := [{ id := 1, username := "alice", role := some Role.innocent }],
    state := { phase := Phase.voting, timer := 30 } }

/-- A room with one player whose stored username carries a trailing space. -/
def rTrailing : Room := { code := "TR", ownerId := 1, players := [{ id := 1, username := "a " }] }

/-- A room in VOTING holding one seated innocent (online) and one roleless
late joiner; the seated player disconnecting leaves zero active-online
players while the roleless player keeps the room alive. -/
def rVotingDrain : Room :=
  { code := "VD", ownerId := 2,
    players := [{ id := 1, username := "al", role := some Role.innocent },
                { id := 2, username := "bo" }],
    state := { phase := Phase.voting, timer := 30 } }

/-- A LOBBY room with two ready players and the 4-second countdown running. -/
def rCountdown : Room :=
  { code := "CD", ownerId := 1,
    players := [{ id := 1, username := "ann", isReady := true },
                { id := 2, username := "ben", isReady := true }],
    state := { phase := Phase.lobby, timer := 4 } }

/-- A pre-existing room with three players, registered under code "ABCDE". -/
def oldRoomC8 : Room :=
  { code := "ABCDE", ownerId := 1,
    players := [{ id := 1, username := "a" }, { id := 2, username := "b" },
                { id := 3, username := "c" }] }

/-- C4 witness: a two-way tie gets both names notified, and the second run is
silent. -/
def rTie : Room :=
  { code := "R4", ownerId := 1,
    players := [{ id := 1, username := "alice", score := 5 },
                { id := 2, username := "bob", score := 5 }] }

/-- C5 witness: a room of one player named "a" rejects a join request for
"A " — the trimmed, lowercased requested name collides. -/
def rTaken : Room := { code := "TK", ownerId := 1, players := [{ id := 1, username := "a" }] }

/-- The room produced by carol joining `rCountdown`. -/
def rCountdownJoined : Room :=
  { rCountdown with players := rCountdown.players ++ [joinPlayer 3 "carol"] }

/-- A mid-match (DISCUSSING) two-player room for the C10 witness. -/
def rMidMatch : Room :=
  { code := "MM", ownerId := 1,
    players := [{ id := 1, username := "al", role := some Role.innocent },
                { id := 2, username := "be", role := some Role.impostor }],
    state := { phase := Phase.discussing, timer := 100, currentRound := 1 } }

/-- Three online players, used as both roster and (identity) shuffle. -/
def trioC2 : List Player :=
  [{ id := 1, username := "a" }, { id := 2, username := "b" }, { id := 3, username := "c" }]

/-- `rVotingDrain` after its seated player went offline: the roleless player
is the only online one. -/
def rVotingGhost : Room :=
  { code := "VG", ownerId := 2,
    players := [{ id := 1, username := "al", role := some Role.innocent, isOffline := true },
                { id := 2, username := "bo" }],
    state := { phase := Phase.voting, timer := 30 } }

/-- The five-player scenario of the spec: one impostor (id 1), four innocents
all voting for the impostor, one abstention. -/
def fiveRoster : List Player :=
  [{ id := 1, username := "imp1", role := some Role.impostor },
   { id := 2, username := "v2", role := some Role.innocent, vote := some 1 },
   { id := 3, username := "v3", role := some Role.innocent, vote := some 1 },
   { id := 4, username := "v4", role := some Role.innocent, vote := some 1 },
   { id := 5, username := "v5", role := some Role.innocent, vote := some 1 }]

/-- C1 (amended): `calculateResults` against its resolution contract.  With the
first-listed impostor `m` in hand:

1. the accused (`votedPlayerId`) is the first target whose running count
   reaches the maximum of the final per-target counts, scanning the cast votes
   in roster order — the spec's "first to reach the running maximum" tie rule;
2. an accused target always holds the (weak) maximum final vote count;
3. accused with impostor role: winner = innocents, and a player gains exactly
   +20 iff their vote targeted `m` (so `m`'s own score is unchanged exactly
   when `m`'s own vote did not target `m` — a self-voting impostor gains +20
   too, the correction that claim C1 as stated misses);
4. otherwise: winner = impostor, and only the first-listed impostor `m` gains
   exactly `30 + 10 × player count`; every other entry is untouched. -/
def resolutionSpec (ps : List Player) (m : Player) : Prop :=
  (accusedIdOf ps = firstToHit (maxVotes (voteList ps)) [] (voteList ps)) ∧
  (∀ t, accusedIdOf ps = some t →
    (voteList ps).count t = maxVotes (voteList ps) ∧
    ∀ u, (voteList ps).count u ≤ (voteList ps).count t) ∧
  (∀ vp, (accusedIdOf ps).bind (fun i => ps.find? (fun p => p.id == i)) = some vp →
    vp.role = some Role.impostor →
    (calculateResults ps).2 = Winner.innocents ∧
    (calculateResults ps).1 = ps.map (scoreDelta20 m) ∧
    (m.vote ≠ some m.id → scoreDelta20 m m = m)) ∧
  ((∀ vp, (accusedIdOf ps).bind (fun i => ps.find? (fun p => p.id == i)) = some vp →
      vp.role ≠ some Role.impostor) →
    (calculateResults ps).2 = Winner.impostor ∧
    ∃ l1 l2, ps = l1 ++ m :: l2 ∧ (∀ q ∈ l1, q.role ≠ some Role.impostor) ∧
      (calculateResults ps).1
        = l1 ++ { m with score := m.score + (30 + ps.length * 10) } :: l2)

/-! ## Timer-handle invariant (claim C3) -/

lemma clearStored_stored (s : TimerSt) : (clearStored s).stored = s.stored := by
  unfold clearStored; cases h : s.stored <;> simp [h]

lemma clearStored_next (s : TimerSt) : (clearStored s).next = s.next := by
  unfold clearStored; cases h : s.stored <;> simp [h]

lemma clearStored_live_nil (s : TimerSt) (hs : timerInv s) : (clearStored s).live = [] := by
  obtain ⟨hlen, hmem, -⟩ := hs
  unfold clearStored
  cases hst : s.stored with
  | none =>
    cases hl : s.live with
    | nil => simp [hl]
    | cons a t =>
      have := hmem a (by rw [hl]; exact List.mem_cons_self a t)
      rw [hst] at this
      exact absurd this (by simp)
  | some h =>
    cases hl : s.live with
    | nil => simp
    | cons a t =>
      have ha := hmem a (by rw [hl]; exact List.mem_cons_self a t)
      rw [hst] at ha
      injection ha with ha
      cases t with
      | nil => simp [ha, List.erase]
      | cons b t2 => rw [hl] at hlen; simp at hlen

lemma timerInv_of_live_nil (s : TimerSt) (h : s.live = []) : timerInv s := by
  refine ⟨by simp [h], by simp [h], by simp [h]⟩

lemma timerInv_armNew (s : TimerSt) (h : s.live = []) : timerInv (armNew s) := by
  refine ⟨by simp [armNew, h], ?_, ?_⟩ <;>
    simp [armNew, h]

lemma timerInv_step (s : TimerSt) (e : TimerEv) (hs : timerInv s) :
    timerInv (timerStep s e) := by
  have hnil := clearStored_live_nil s hs
  cases e with
  | runSetPhase d =>
    unfold timerStep
    by_cases hd : 0 < d
    · simp only [hd, if_true]
      exact timerInv_armNew _ hnil
    · simp only [hd, if_false]
      exact timerInv_of_live_nil _ hnil
  | runStartTurn => exact timerInv_armNew _ hnil
  | runClear => exact timerInv_of_live_nil _ hnil
  | expireTick => exact timerInv_of_live_nil _ hnil

lemma timerInv_foldl (evs : List TimerEv) :
    ∀ s : TimerSt, timerInv s → timerInv (evs.foldl timerStep s) := by
  induction evs with
  | nil => intro s h; simpa
  | cons e t ih => intro s h; exact ih _ (timerInv_step s e h)

/-- C3: in every state reachable by any sequence of the source's timer actions
(each `setPhase`, the arming branch of `startTurn`, the guarded bare
`clearInterval` sites, and interval self-expiry), at most one countdown
interval is live for the room — every arming operation first cancels the
stored handle, so two concurrently live timers never exist. -/
theorem C3_single_timer (evs : List TimerEv) : (timerRun evs).live.length ≤ 1 := by
  have h0 : timerInv { live := [], stored := none, next := 0 } :=
    timerInv_of_live_nil _ rfl
  exact (timerInv_foldl evs _ h0).1

/-! ## Match-winner award (claim C4) -/

lemma award_sent_true (r : Room) (h : r.state.winnerAwardSent = true) :
    awardMatchWinners r = (r, []) := by
  unfold awardMatchWinners; simp [h]

lemma award_noop_or_sent (r : Room) :
    awardMatchWinners r = (r, []) ∨
      (awardMatchWinners r).1.state.winnerAwardSent = true := by
  by_cases h1 : r.state.winnerAwardSent
  · exact Or.inl (award_sent_true r h1)
  · by_cases h2 : r.players.isEmpty
    · left; unfold awardMatchWinners; simp [h1, h2]
    · by_cases h3 :
        (r.players.filter
          (fun p => p.score == listMax (r.players.map (fun q => q.score)))).isEmpty
      · left; unfold awardMatchWinners; simp [h1, h2, h3]
      · right; unfold awardMatchWinners; simp [h1, h2, h3]

/-- C4 (amended): the award is one-shot — with `winnerAwardSent` already set it
notifies nobody and changes nothing; running it twice in a row never notifies
on the second run; and on a live first run every player tied at the maximum
score whose trimmed username is nonempty gets a webhook notification. -/
theorem C4_award_once (r : Room) (p : Player) :
    (r.state.winnerAwardSent = true → awardMatchWinners r = (r, [])) ∧
    awardMatchWinners (awardMatchWinners r).1 = ((awardMatchWinners r).1, []) ∧
    (r.state.winnerAwardSent = false → p ∈ r.players →
      p.score = listMax (r.players.map (fun q => q.score)) →
      trimStr p.username ≠ "" →
      trimStr p.username ∈ (awardMatchWinners r).2) := by
  refine ⟨fun h => award_sent_true r h, ?_, ?_⟩
  · rcases award_noop_or_sent r with h | h
    · rw [h]; exact h
    · exact award_sent_true _ h
  · intro h1 h2 h3 h4
    have hne : r.players.isEmpty = false := by
      cases hp : r.players with
      | nil => rw [hp] at h2; simp at h2
      | cons a t => rfl
    have hwin : p ∈ r.players.filter
        (fun q => q.score == listMax (r.players.map (fun q => q.score))) :=
      List.mem_filter.mpr ⟨h2, by simp [h3]⟩
    have hwne : (r.players.filter
        (fun q => q.score == listMax (r.players.map (fun q => q.score)))).isEmpty = false := by
      cases hp : r.players.filter
          (fun q => q.score == listMax (r.players.map (fun q => q.score))) with
      | nil => rw [hp] at hwin; simp at hwin
      | cons a t => rfl
    unfold awardMatchWinners
    simp only [h1, hne, hwne, if_false, Bool.false_eq_true]
    exact List.mem_filterMap.mpr ⟨p, hwin, by simp [h4]⟩

theorem C4_witness :
    rTie.state.winnerAwardSent = false ∧
    ({ id := 1, username := "alice", score := 5 } : Player) ∈ rTie.players ∧
    trimStr "alice" ∈ (awardMatchWinners rTie).2 := by
  refine ⟨rfl, by decide, ?_⟩
  exact (C4_award_once rTie { id := 1, username := "alice", score := 5 }).2.2
    rfl (by decide) (by decide) (by decide)

/-- C4 counterexample to the claim as stated: a winner whose username trims to
the empty string is tied at the maximum score but the webhook is never
notified for them (`notifyVecbotWinner` drops empty names). -/
theorem C4_counterexample :
    rBlankWinner.state.winnerAwardSent = false ∧
    ({ id := 1, username := " " } : Player) ∈ rBlankWinner.players ∧
    ({ id := 1, username := " " } : Player).score
      = listMax (rBlankWinner.players.map (fun q => q.score)) ∧
    (awardMatchWinners rBlankWinner).2 = [] := by decide

/-! ## Room creation and the registry (claim C8) -/

lemma find?_map_replace (t : List (String × Room)) (c : String) (r : Room)
    (h : t.any (fun kv => kv.1 == c) = true) :
    (t.map (fun kv => if kv.1 == c then (c, r) else kv)).find? (fun kv => kv.1 == c)
      = some (c, r) := by
  induction t with
  | nil => simp at h
  | cons kv tl ih =>
    by_cases hk : kv.1 == c
    · rw [List.map_cons, if_pos hk, List.find?_cons_of_pos _ (by simp)]
    · rw [List.map_cons, if_neg hk, List.find?_cons_of_neg _ (by simpa using hk)]
      apply ih
      simpa [List.any_cons, hk] using h

lemma find?_append_self (regs : List (String × Room)) (c : String) (r : Room)
    (h : regs.any (fun kv => kv.1 == c) = false) :
    (regs ++ [(c, r)]).find? (fun kv => kv.1 == c) = some (c, r) := by
  induction regs with
  | nil => rw [List.nil_append, List.find?_cons_of_pos _ (by simp)]
  | cons kv tl ih =>
    rw [List.any_cons, Bool.or_eq_false_iff] at h
    rw [List.cons_append, List.find?_cons_of_neg _ (by simp [h.1])]
    exact ih h.2

lemma lookupReg_insertReplace (regs : List (String × Room)) (c : String) (r : Room) :
    lookupReg (insertReplace regs c r) c = some r := by
  unfold insertReplace lookupReg
  by_cases h : regs.any (fun kv => kv.1 == c)
  · rw [if_pos h, find?_map_replace regs c r h]; rfl
  · rw [if_neg h, find?_append_self regs c r (Bool.eq_false_iff.mpr h)]; rfl

/-- C8 (amended): `create_room` performs no collision check at all — the
freshly generated code is bound unconditionally, so after creation the registry
maps that code to the brand-new room whether or not a room already existed
under it (an existing room is silently replaced, never preserved). -/
theorem C8_create_overwrites (regs : List (String × Room)) (code : String)
    (sid : Nat) (u : String) (pub : Bool) (rnds : Nat) :
    lookupReg (createRoomReg regs code sid u pub rnds) code
      = some (freshRoom code sid u pub rnds) :=
  lookupReg_insertReplace regs code (freshRoom code sid u pub rnds)

/-- C8 counterexample to the claim as stated: a registry already holding room
"ABCDE" (three players) loses it when `create_room` happens to generate the
same code — the lookup afterwards returns the fresh one-player room, so the
generator was not re-invoked and the existing room's state was replaced. -/
theorem C8_counterexample :
    lookupReg [("ABCDE", oldRoomC8)] "ABCDE" = some oldRoomC8 ∧
    lookupReg (createRoomReg [("ABCDE", oldRoomC8)] "ABCDE" 9 "eve" true 5) "ABCDE"
      = some (freshRoom "ABCDE" 9 "eve" true 5) ∧
    freshRoom "ABCDE" 9 "eve" true 5 ≠ oldRoomC8 := by decide

/-! ## submit_vote from a non-player connection (claim C9) -/

/-- C9: the `submit_vote` handler is not total.  With a valid room code and the
room in VOTING, a connection that is not a player of the room drives
`player.vote = targetId` into undefined-property assignment: an uncaught
TypeError, i.e. a fatal error path in the core, contradicting the stated
design that no inbound action can crash the process. -/
theorem C9_submit_vote_throws :
    rIntruder.state.phase = Phase.voting ∧
    rIntruder.players.all (fun p => !(p.id == 99)) = true ∧
    submitVote rIntruder 99 1
      = Except.error "TypeError: cannot set property vote of undefined" :=
  ⟨rfl, rfl, rfl⟩

/-! ## The join contract (claims C5, C7, C10) -/

/-- C5 (amended): joining an existing room is rejected exactly when the room
already holds 12 players or when the lowercased, *trimmed* requested username
equals the lowercased (untrimmed) username of some existing player; otherwise
a fresh player with default per-round fields (`role`, `word`, `vote` null,
score 0) and no owner flag is appended, and nothing else about the room
changes.  Rejections return an error to the sender and touch nothing. -/
theorem C5_join_contract (r : Room) (sid : Nat) (username : String) :
    (12 ≤ r.players.length → joinRoom r sid username = Except.error "room_full") ∧
    (r.players.length < 12 →
      r.players.any (fun p => lowerStr p.username == lowerStr (trimStr username)) = true →
      joinRoom r sid username = Except.error "username_taken") ∧
    (r.players.length < 12 →
      r.players.any (fun p => lowerStr p.username == lowerStr (trimStr username)) = false →
      joinRoom r sid username
        = Except.ok { r with players := r.players ++ [joinPlayer sid username] } ∧
      (joinPlayer sid username).role = none ∧
      (joinPlayer sid username).word = none ∧
      (joinPlayer sid username).vote = none ∧
      (joinPlayer sid username).score = 0 ∧
      (joinPlayer sid username).isOwner = false) := by
  refine ⟨fun h => by unfold joinRoom; simp [h], fun h1 h2 => ?_, fun h1 h2 => ?_⟩
  · unfold joinRoom
    rw [if_neg (by omega), if_pos h2]
  · refine ⟨?_, rfl, rfl, rfl, rfl, rfl⟩
    unfold joinRoom
    rw [if_neg (by omega), if_neg (by simp [h2])]

theorem C5_witness :
    rTaken.players.length < 12 ∧
    rTaken.players.any (fun p => lowerStr p.username == lowerStr (trimStr "A ")) = true ∧
    joinRoom rTaken 2 "A " = Except.error "username_taken" :=
  ⟨by decide, by decide, (C5_join_contract rTaken 2 "A ").2.1 (by decide) (by decide)⟩

/-- C5 counterexample to the claim as stated: requested name "a " collides
case-insensitively (without trimming) with the stored username "a " of an
existing player, yet the join is accepted, because the source trims only the
requested side before comparing. -/
theorem C5_counterexample :
    collidesCaseInsensitive rTrailing.players "a " = true ∧
    rTrailing.players.length < 12 ∧
    (joinRoom rTrailing 2 "a ").isOk = true := by decide

/-- C7 (amended): a player joining a LOBBY room whose 4-second ready countdown
is running does *not* cancel the countdown — `join_room` leaves `state`
(phase, timer and all) exactly as it was and appends the joiner unready, so a
countdown can keep running while a connected player is unready.  (The
countdown is cancelled only by `toggle_ready` or a lobby disconnect breaking
readiness.) -/
theorem C7_join_keeps_countdown (r : Room) (sid : Nat) (u : String) (r2 : Room)
    (hlob : r.state.phase = Phase.lobby)
    (hok : joinRoom r sid u = Except.ok r2) :
    r2.state = r.state ∧
    r2.state.phase = Phase.lobby ∧
    r2.players.map (fun p => p.isReady) = r.players.map (fun p => p.isReady) ++ [false] := by
  unfold joinRoom at hok
  by_cases h1 : 12 ≤ r.players.length
  · rw [if_pos h1] at hok; exact absurd hok (by simp)
  · rw [if_neg h1] at hok
    by_cases h2 :
        r.players.any (fun p => lowerStr p.username == lowerStr (trimStr u)) = true
    · rw [if_pos h2] at hok; exact absurd hok (by simp)
    · rw [if_neg h2] at hok
      injection hok with hok
      subst hok
      exact ⟨rfl, hlob, by simp [joinPlayer]⟩

theorem C7_witness :
    rCountdown.state.phase = Phase.lobby ∧
    joinRoom rCountdown 3 "carol" = Except.ok rCountdownJoined ∧
    rCountdownJoined.state = rCountdown.state ∧
    rCountdownJoined.state.timer = 4 :=
  ⟨rfl, rfl,
    (C7_join_keeps_countdown rCountdown 3 "carol" rCountdownJoined rfl rfl).1, rfl⟩

/-- C7 counterexample to the claim as stated: with the countdown at 4 seconds
and two ready players, carol joins unready — the resulting room still has
timer 4 (not 0) and phase LOBBY, with an unready connected player present. -/
theorem C7_counterexample :
    rCountdown.state.timer = 4 ∧
    ((joinRoom rCountdown 3 "carol").toOption.map (fun r => r.state.timer)) = some 4 ∧
    ((joinRoom rCountdown 3 "carol").toOption.map (fun r => r.state.phase))
      = some Phase.lobby ∧
    ((joinRoom rCountdown 3 "carol").toOption.map
      (fun r => r.players.all (fun p => p.isReady))) = some false := by decide

/-- C10: `join_room` never inspects the phase, so a join is accepted mid-match
under the same cap/name conditions; the joiner arrives with `role = none` and
therefore does not enter `activeOnline`, the quorum population of the
`submit_vote` / `skip_discussion` / `skip_match_end` checks, until a round
rollover assigns roles. -/
theorem C10_join_any_phase (r : Room) (sid : Nat) (u : String)
    (hcap : r.players.length < 12)
    (hname : r.players.any (fun p => lowerStr p.username == lowerStr (trimStr u)) = false) :
    joinRoom r sid u = Except.ok { r with players := r.players ++ [joinPlayer sid u] } ∧
    (joinPlayer sid u).role = none ∧
    activeOnline (r.players ++ [joinPlayer sid u]) = activeOnline r.players := by
  refine ⟨?_, rfl, ?_⟩
  · unfold joinRoom
    rw [if_neg (by omega), if_neg (by simp [hname])]
  · unfold activeOnline
    rw [List.filter_append]
    simp [joinPlayer]

theorem C10_witness :
    rMidMatch.players.length < 12 ∧
    rMidMatch.state.phase = Phase.discussing ∧
    joinRoom rMidMatch 3 "cy"
      = Except.ok { rMidMatch with players := rMidMatch.players ++ [joinPlayer 3 "cy"] } ∧
    activeOnline (rMidMatch.players ++ [joinPlayer 3 "cy"])
      = activeOnline rMidMatch.players :=
  ⟨by decide, rfl, (C10_join_any_phase rMidMatch 3 "cy" (by decide) (by decide)).1,
    (C10_join_any_phase rMidMatch 3 "cy" (by decide) (by decide)).2.2⟩

/-! ## Impostor-count invariant of the round rollover (claim C2) -/

lemma contains_iff (l : List Nat) (a : Nat) : l.contains a = true ↔ a ∈ l :=
  List.elem_iff

lemma countP_contains_split (sids : List Nat) (k : Nat) (hk : k ≤ sids.length)
    (hnd : sids.Nodup) :
    sids.countP (fun i => (sids.take k).contains i) = k ∧
    sids.countP (fun i => !((sids.take k).contains i)) = sids.length - k := by
  have hdecomp : sids.take k ++ sids.drop k = sids := List.take_append_drop k sids
  have hdisj : List.Disjoint (sids.take k) (sids.drop k) :=
    List.disjoint_of_nodup_append (by rwa [hdecomp])
  have hlen : (sids.take k).length = k := by
    rw [List.length_take]; omega
  have h1 : (sids.take k).countP (fun i => (sids.take k).contains i)
      = (sids.take k).length :=
    List.countP_eq_length.mpr (fun a ha => (contains_iff _ _).mpr ha)
  have h2 : (sids.drop k).countP (fun i => (sids.take k).contains i) = 0 :=
    List.countP_eq_zero.mpr (fun a ha hc => hdisj ((contains_iff _ _).mp hc) ha)
  have h3 : (sids.drop k).countP (fun i => !((sids.take k).contains i))
      = (sids.drop k).length :=
    List.countP_eq_length.mpr (fun a ha => by
      rw [Bool.not_eq_true']
      exact Bool.eq_false_iff.mpr (fun hc => hdisj ((contains_iff _ _).mp hc) ha))
  have h4 : (sids.take k).countP (fun i => !((sids.take k).contains i)) = 0 :=
    List.countP_eq_zero.mpr (fun a ha hc => by
      rw [Bool.not_eq_true'] at hc
      have hmem := (contains_iff _ _).mpr ha
      rw [hc] at hmem
      exact Bool.false_ne_true hmem)
  have hdlen : (sids.drop k).length = sids.length - k := List.length_drop k sids
  have e1 : ∀ g : Nat → Bool,
      sids.countP g = (sids.take k).countP g + (sids.drop k).countP g := by
    intro g
    conv_lhs => rw [← hdecomp]
    exact List.countP_append _ _ _
  constructor
  · rw [e1, h1, h2, hlen]; omega
  · rw [e1, h3, h4, hdlen]; omega

lemma assignRoles_counts (a shuffled : List Player)
    (hperm : shuffled.Perm a)
    (hnd : (a.map (fun p => p.id)).Nodup)
    (hk : impostorCountFor a.length ≤ a.length) :
    (assignRoles a shuffled).countP (fun p => p.role == some Role.impostor)
        = impostorCountFor a.length ∧
    (assignRoles a shuffled).countP (fun p => p.role == some Role.innocent)
        = a.length - impostorCountFor a.length := by
  have hpermids : (shuffled.map (fun p => p.id)).Perm (a.map (fun p => p.id)) :=
    hperm.map _
  have hsnd : (shuffled.map (fun p => p.id)).Nodup := hpermids.symm.nodup hnd
  have hslen : (shuffled.map (fun p => p.id)).length = a.length := by
    rw [List.length_map, hperm.length_eq]
  obtain ⟨hc1, hc2⟩ := countP_contains_split (shuffled.map (fun p => p.id))
    (impostorCountFor a.length) (by omega) hsnd
  have himpids : (shuffled.take (impostorCountFor a.length)).map (fun p => p.id)
      = (shuffled.map (fun p => p.id)).take (impostorCountFor a.length) :=
    List.map_take _ _ _
  have key : ∀ g : Nat → Bool,
      a.countP (fun p => g p.id) = (shuffled.map (fun p => p.id)).countP g := by
    intro g
    have hmap : (a.map (fun p => p.id)).countP g = a.countP (fun p => g p.id) := by
      rw [List.countP_map]; rfl
    rw [← hmap, hpermids.countP_eq]
  constructor
  · unfold assignRoles
    rw [List.countP_map]
    have hcongr : a.countP ((fun p => p.role == some Role.impostor) ∘ fun p =>
        if ((shuffled.take (impostorCountFor a.length)).map (fun p => p.id)).contains p.id
        then { roundReset p with role := some Role.impostor }
        else { roundReset p with role := some Role.innocent })
        = a.countP (fun p =>
          ((shuffled.map (fun q => q.id)).take (impostorCountFor a.length)).contains p.id) := by
      refine List.countP_congr fun p hp => ?_
      by_cases hm : p.id ∈ (shuffled.map (fun q => q.id)).take (impostorCountFor a.length) <;>
        simp [Function.comp, hm]
    rw [hcongr, key, hc1]
  · unfold assignRoles
    rw [List.countP_map]
    have hcongr : a.countP ((fun p => p.role == some Role.innocent) ∘ fun p =>
        if ((shuffled.take (impostorCountFor a.length)).map (fun p => p.id)).contains p.id
        then { roundReset p with role := some Role.impostor }
        else { roundReset p with role := some Role.innocent })
        = a.countP (fun p =>
          !(((shuffled.map (fun q => q.id)).take
            (impostorCountFor a.length)).contains p.id)) := by
      refine List.countP_congr fun p hp => ?_
      by_cases hm : p.id ∈ (shuffled.map (fun q => q.id)).take (impostorCountFor a.length) <;>
        simp [Function.comp, hm]
    rw [hcongr,
      key (fun i =>
        !(((shuffled.map (fun q => q.id)).take (impostorCountFor a.length)).contains i)),
      hc2, hslen]

/-- C2: whenever the round rollover proceeds into a round (at least two players
survive the offline purge), the produced roster carries exactly
`impostorCountFor n` impostors — 1 when the post-purge count `n` is below 8,
2 (distinct players, chosen without replacement from the shuffle) once `n ≥ 8`
— and every other player is innocent. -/
theorem C2_impostor_count (ps shuffled out : List Player)
    (hperm : shuffled.Perm (purgeOffline ps))
    (hnd : ((purgeOffline ps).map (fun p => p.id)).Nodup)
    (hrun : nextRoundRoles ps shuffled = some out) :
    out.length = (purgeOffline ps).length ∧
    ((purgeOffline ps).length < 8 →
      out.countP (fun p => p.role == some Role.impostor) = 1) ∧
    (8 ≤ (purgeOffline ps).length →
      out.countP (fun p => p.role == some Role.impostor) = 2) ∧
    out.countP (fun p => p.role == some Role.innocent)
      = (purgeOffline ps).length - impostorCountFor (purgeOffline ps).length := by
  unfold nextRoundRoles at hrun
  by_cases hlt : (purgeOffline ps).length < 2
  · rw [if_pos hlt] at hrun; exact absurd hrun (by simp)
  rw [if_neg hlt] at hrun
  injection hrun with hrun
  subst hrun
  have hklen : impostorCountFor (purgeOffline ps).length ≤ (purgeOffline ps).length := by
    unfold impostorCountFor; split <;> omega
  obtain ⟨hcImp, hcInn⟩ := assignRoles_counts (purgeOffline ps) shuffled hperm hnd hklen
  refine ⟨by unfold assignRoles; simp, ?_, ?_, hcInn⟩
  · intro h8
    rw [hcImp]
    unfold impostorCountFor
    rw [if_neg (by omega)]
  · intro h8
    rw [hcImp]
    unfold impostorCountFor
    rw [if_pos h8]

theorem C2_witness :
    trioC2.Perm (purgeOffline trioC2) ∧
    ((purgeOffline trioC2).map (fun p => p.id)).Nodup ∧
    (purgeOffline trioC2).length < 8 ∧
    (assignRoles (purgeOffline trioC2) trioC2).countP
      (fun p => p.role == some Role.impostor) = 1 :=
  ⟨List.Perm.refl trioC2, by decide, by decide,
    (C2_impostor_count trioC2 trioC2 (assignRoles (purgeOffline trioC2) trioC2)
      (List.Perm.refl trioC2) (by decide) rfl).2.1 (by decide)⟩

/-! ## VOTING drain behaviour (claims C6, C9 context) -/

/-- C6 (amended): a disconnect while the room is in VOTING never performs the
vote tally — the handler marks the player offline and either deletes the room
(no online player left) or leaves it still in VOTING; the immediate
zero-active-online transition to RESULTS exists only inside the `submit_vote`
handler, which tallies and moves to RESULTS the moment its post-vote quorum
check sees no active-online players. -/
theorem C6_voting_drain (r : Room) (sid target : Nat) (p : Player)
    (hph : r.state.phase = Phase.voting)
    (hmem : r.players.find? (fun q => q.id == sid) = some p) :
    (onDisconnect r sid = none ∨
      (onDisconnect r sid).map (fun x => x.state.phase) = some Phase.voting) ∧
    (activeOnline (updateFirst (fun q => { q with vote := some target })
        (fun q => q.id == sid) r.players) = [] →
      (submitVote r sid target).toOption.map (fun x => x.state.phase)
        = some Phase.results) := by
  constructor
  · unfold onDisconnect
    rw [hph]
    simp only [show (Phase.voting == Phase.lobby) = false from rfl,
      show (Phase.voting == Phase.writing) = false from rfl, Bool.false_and,
      Bool.false_eq_true, if_false]
    by_cases he :
        ((updateFirst (fun p => { p with isOffline := true })
          (fun p => p.id == sid) r.players).filter (fun p => !p.isOffline)).isEmpty
    · left; simp [he]
    · right
      simp only [he, Bool.false_eq_true, if_false]
      by_cases ho : r.ownerId == sid
      · simp only [ho, if_true]
        cases hh : ((updateFirst (fun p => { p with isOffline := true })
            (fun p => p.id == sid) r.players).filter (fun p => !p.isOffline)).head? with
        | none => simp [hph]
        | some q => simp [hph]
      · simp [ho, hph]
  · intro hall
    unfold submitVote
    rw [hph]
    simp only [show (Phase.voting != Phase.voting) = false from rfl,
      Bool.false_eq_true, if_false]
    rw [hmem]
    simp only [hall, List.isEmpty_nil, Bool.not_true, Bool.false_and,
      Bool.false_eq_true, if_false, if_true, calcResultsRoom, setPhasePure]
    rfl

theorem C6_witness :
    rVotingGhost.state.phase = Phase.voting ∧
    rVotingGhost.players.find? (fun q => q.id == 2) = some { id := 2, username := "bo" } ∧
    activeOnline (updateFirst (fun q => { q with vote := some 1 })
      (fun q => q.id == 2) rVotingGhost.players) = [] ∧
    (submitVote rVotingGhost 2 1).toOption.map (fun x => x.state.phase)
      = some Phase.results :=
  ⟨rfl, by decide, by decide,
    (C6_voting_drain rVotingGhost 2 1 { id := 2, username := "bo" } rfl
      (by decide)).2 (by decide)⟩

/-- C6 counterexample to the claim as stated: in `rVotingDrain` the seated
innocent (id 1) disconnects, leaving zero active-online players, yet the room
stays in VOTING — no immediate transition to RESULTS happens on a disconnect. -/
theorem C6_counterexample :
    rVotingDrain.state.phase = Phase.voting ∧
    ((onDisconnect rVotingDrain 1).map (fun x => x.state.phase)) = some Phase.voting ∧
    ((onDisconnect rVotingDrain 1).map (fun x => activeOnline x.players)) = some [] ∧
    Phase.voting ≠ Phase.results := by decide

/-! ## Vote resolution (claim C1)

The running-maximum tally loop is related to its specification: the final
maximum equals the maximum of the final per-target counts, and the final
accused is the first target whose running count reaches that maximum. -/

lemma le_foldrMax (L : List Nat) (a : Nat) (h : a ∈ L) : a ≤ L.foldr max 0 := by
  induction L with
  | nil => simp at h
  | cons x t ih =>
    rcases List.mem_cons.mp h with h1 | h1
    · subst h1; exact le_max_left _ _
    · exact le_trans (ih h1) (le_max_right _ _)

lemma foldrMax_le (L : List Nat) (b : Nat) (h : ∀ a ∈ L, a ≤ b) : L.foldr max 0 ≤ b := by
  induction L with
  | nil => simp
  | cons x t ih =>
    exact max_le (h x (List.mem_cons_self x t)) (ih fun a ha => h a (List.mem_cons_of_mem x ha))

lemma foldrMax_mem (L : List Nat) : L.foldr max 0 = 0 ∨ L.foldr max 0 ∈ L := by
  induction L with
  | nil => left; rfl
  | cons x t ih =>
    rcases max_choice x (t.foldr max 0) with h | h
    · right; rw [List.foldr_cons, h]; exact List.mem_cons_self x t
    · rw [List.foldr_cons, h]
      rcases ih with h2 | h2
      · left; exact h2
      · right; exact List.mem_cons_of_mem x h2

lemma count_le_maxVotes (l : List Nat) (t : Nat) : l.count t ≤ maxVotes l := by
  by_cases h : t ∈ l
  · exact le_foldrMax _ _ (List.mem_map.mpr ⟨t, h, rfl⟩)
  · rw [List.count_eq_zero.mpr h]; exact Nat.zero_le _

lemma maxVotes_le (l : List Nat) (b : Nat) (h : ∀ t ∈ l, l.count t ≤ b) :
    maxVotes l ≤ b := by
  refine foldrMax_le _ _ ?_
  intro a ha
  obtain ⟨t, ht, rfl⟩ := List.mem_map.mp ha
  exact h t ht

lemma maxVotes_attained (l : List Nat) (h : maxVotes l ≠ 0) :
    ∃ t ∈ l, l.count t = maxVotes l := by
  rcases foldrMax_mem (l.map fun t => l.count t) with h0 | hmem
  · exact absurd h0 h
  · obtain ⟨t, ht, he⟩ := List.mem_map.mp hmem
    exact ⟨t, ht, he⟩

lemma firstToHit_nil (m : Nat) (acc : List Nat) : firstToHit m acc [] = none := rfl

lemma firstToHit_cons (m : Nat) (acc : List Nat) (t : Nat) (rest : List Nat) :
    firstToHit m acc (t :: rest)
      = if acc.count t + 1 = m then some t else firstToHit m (acc ++ [t]) rest := rfl

lemma cnt_single (u t : Nat) : List.count u [t] = if u = t then 1 else 0 := by
  by_cases h : u = t <;> simp [h]

lemma cnt_cons (u t : Nat) (l : List Nat) :
    List.count u (t :: l) = l.count u + if u = t then 1 else 0 := by
  by_cases h : u = t
  · subst h; rw [List.count_cons_self, if_pos rfl]
  · rw [List.count_cons_of_ne h, if_neg h]
    omega

lemma firstToHit_append (m : Nat) (l1 l2 : List Nat) : ∀ acc : List Nat,
    firstToHit m acc (l1 ++ l2)
      = match firstToHit m acc l1 with
        | some t => some t
        | none => firstToHit m (acc ++ l1) l2 := by
  induction l1 with
  | nil => intro acc; simp [firstToHit_nil]
  | cons t rest ih =>
    intro acc
    rw [List.cons_append, firstToHit_cons, firstToHit_cons]
    by_cases h : acc.count t + 1 = m
    · rw [if_pos h, if_pos h]
    · rw [if_neg h, if_neg h, ih (acc ++ [t]),
        show acc ++ t :: rest = (acc ++ [t]) ++ rest from List.append_cons acc t rest]

lemma firstToHit_eq_none (m : Nat) (l : List Nat) : ∀ acc : List Nat,
    (∀ t, acc.count t + l.count t < m) → firstToHit m acc l = none := by
  induction l with
  | nil => intro acc h; rfl
  | cons t rest ih =>
    intro acc h
    rw [firstToHit_cons, if_neg ?_]
    · refine ih (acc ++ [t]) fun u => ?_
      have hu := h u
      rw [cnt_cons] at hu
      rw [List.count_append, cnt_single]
      omega
    · have ht := h t
      rw [cnt_cons, if_pos rfl] at ht
      omega

lemma firstToHit_isSome (m : Nat) (l : List Nat) : ∀ (acc : List Nat) (u : Nat),
    acc.count u < m → m ≤ acc.count u + l.count u → (firstToHit m acc l).isSome := by
  induction l with
  | nil =>
    intro acc u h1 h2
    rw [List.count_nil] at h2
    omega
  | cons t rest ih =>
    intro acc u h1 h2
    rw [firstToHit_cons]
    by_cases h : acc.count t + 1 = m
    · rw [if_pos h]; rfl
    · rw [if_neg h]
      by_cases hut : u = t
      · subst hut
        refine ih (acc ++ [u]) u ?_ ?_
        · rw [List.count_append, cnt_single, if_pos rfl]
          omega
        · rw [List.count_append, cnt_single, if_pos rfl]
          rw [cnt_cons, if_pos rfl] at h2
          omega
      · refine ih (acc ++ [t]) u ?_ ?_
        · rw [List.count_append, cnt_single, if_neg hut]
          omega
        · rw [List.count_append, cnt_single, if_neg hut]
          rw [cnt_cons, if_neg hut] at h2
          omega

lemma maxVotes_append_single (pre : List Nat) (t : Nat) :
    maxVotes (pre ++ [t])
      = if maxVotes pre < pre.count t + 1 then pre.count t + 1 else maxVotes pre := by
  have hcnt : ∀ u, (pre ++ [t]).count u = pre.count u + if u = t then 1 else 0 :=
    fun u => by rw [List.count_append, cnt_single]
  by_cases h : maxVotes pre < pre.count t + 1
  · rw [if_pos h]
    apply le_antisymm
    · refine maxVotes_le _ _ fun u hu => ?_
      rw [hcnt u]
      by_cases he : u = t
      · subst he; rw [if_pos rfl]
      · rw [if_neg he]
        have := count_le_maxVotes pre u
        omega
    · have hct : (pre ++ [t]).count t = pre.count t + 1 := by rw [hcnt t, if_pos rfl]
      rw [← hct]
      exact count_le_maxVotes _ t
  · rw [if_neg h]
    apply le_antisymm
    · refine maxVotes_le _ _ fun u hu => ?_
      rw [hcnt u]
      by_cases he : u = t
      · subst he; rw [if_pos rfl]; omega
      · rw [if_neg he]
        have := count_le_maxVotes pre u
        omega
    · by_cases hM : maxVotes pre = 0
      · rw [hM]; exact Nat.zero_le _
      · obtain ⟨u, hu, he⟩ := maxVotes_attained pre hM
        calc maxVotes pre = pre.count u := he.symm
          _ ≤ (pre ++ [t]).count u := by rw [hcnt u]; omega
          _ ≤ maxVotes (pre ++ [t]) := count_le_maxVotes _ u

lemma firstToHit_count_ge (m : Nat) (l : List Nat) : ∀ (acc : List Nat) (t : Nat),
    firstToHit m acc l = some t → m ≤ acc.count t + l.count t := by
  induction l with
  | nil => intro acc t h; exact absurd h (by rw [firstToHit_nil]; simp)
  | cons x rest ih =>
    intro acc t h
    rw [firstToHit_cons] at h
    by_cases hx : acc.count x + 1 = m
    · rw [if_pos hx] at h
      injection h with h
      subst h
      rw [cnt_cons, if_pos rfl]
      omega
    · rw [if_neg hx] at h
      have hrec := ih (acc ++ [x]) t h
      rw [List.count_append, cnt_single] at hrec
      rw [cnt_cons]
      by_cases he : t = x
      · rw [if_pos he] at hrec
        rw [if_pos he]
        omega
      · rw [if_neg he] at hrec
        rw [if_neg he]
        omega

lemma firstToHit_append_single (pre : List Nat) (t : Nat) :
    firstToHit (maxVotes (pre ++ [t])) [] (pre ++ [t])
      = if maxVotes pre < pre.count t + 1 then some t
        else firstToHit (maxVotes pre) [] pre := by
  rw [maxVotes_append_single]
  by_cases h : maxVotes pre < pre.count t + 1
  · rw [if_pos h, if_pos h, firstToHit_append]
    have h1 : firstToHit (pre.count t + 1) [] pre = none := by
      refine firstToHit_eq_none _ _ [] fun u => ?_
      rw [List.count_nil]
      have := count_le_maxVotes pre u
      omega
    rw [h1]
    show firstToHit (pre.count t + 1) ([] ++ pre) [t] = some t
    rw [List.nil_append, firstToHit_cons, if_pos rfl]
  · rw [if_neg h, if_neg h, firstToHit_append]
    have hMne : maxVotes pre ≠ 0 := by omega
    obtain ⟨u, hu, he⟩ := maxVotes_attained pre hMne
    have hsome : (firstToHit (maxVotes pre) [] pre).isSome := by
      refine firstToHit_isSome _ _ [] u ?_ ?_
      · rw [List.count_nil]; omega
      · rw [List.count_nil, he]; omega
    obtain ⟨x, hx⟩ := Option.isSome_iff_exists.mp hsome
    rw [hx]

lemma tallyStep_statOf (pre : List Nat) (t : Nat) :
    tallyStep (statOf pre) t = statOf (pre ++ [t]) := by
  have hcounts : (fun u => if u = t then pre.count t + 1 else pre.count u)
      = fun u => (pre ++ [t]).count u := by
    funext u
    rw [List.count_append, cnt_single]
    by_cases he : u = t
    · subst he; rw [if_pos rfl, if_pos rfl]
    · rw [if_neg he, if_neg he]; omega
  unfold statOf tallyStep
  dsimp only
  rw [firstToHit_append_single, maxVotes_append_single, ← hcounts]
  by_cases h : maxVotes pre < pre.count t + 1
  · rw [if_pos h, if_pos h, if_pos h]
  · rw [if_neg h, if_neg h, if_neg h]

lemma tallyVotes_foldl (rest : List Nat) : ∀ pre : List Nat,
    List.foldl tallyStep (statOf pre) rest = statOf (pre ++ rest) := by
  induction rest with
  | nil => intro pre; rw [List.foldl_nil, List.append_nil]
  | cons t r ih =>
    intro pre
    rw [List.foldl_cons, tallyStep_statOf, ih (pre ++ [t]),
      show (pre ++ [t]) ++ r = pre ++ t :: r from (List.append_cons pre t r).symm]

lemma tallyVotes_eq_statOf (l : List Nat) : tallyVotes l = statOf l := by
  have h0 : ((fun _ => 0, 0, none) : (Nat → Nat) × Nat × Option Nat) = statOf [] := rfl
  unfold tallyVotes
  rw [h0, tallyVotes_foldl l [], List.nil_append]

lemma accusedId_spec (ps : List Player) :
    accusedIdOf ps = firstToHit (maxVotes (voteList ps)) [] (voteList ps) := by
  unfold accusedIdOf
  rw [tallyVotes_eq_statOf]
  rfl

lemma accused_count_max (ps : List Player) (t : Nat)
    (h : accusedIdOf ps = some t) :
    (voteList ps).count t = maxVotes (voteList ps) ∧
    ∀ u, (voteList ps).count u ≤ (voteList ps).count t := by
  rw [accusedId_spec] at h
  have h1 := firstToHit_count_ge _ _ [] t h
  rw [List.count_nil] at h1
  have h2 := count_le_maxVotes (voteList ps) t
  refine ⟨by omega, fun u => ?_⟩
  have h3 := count_le_maxVotes (voteList ps) u
  omega

lemma addToFirstImpostor_decomp (d : Nat) (ps : List Player) : ∀ m : Player,
    ps.find? (fun p => p.role == some Role.impostor) = some m →
    ∃ l1 l2, ps = l1 ++ m :: l2 ∧ (∀ q ∈ l1, q.role ≠ some Role.impostor) ∧
      addToFirstImpostor d ps = l1 ++ { m with score := m.score + d } :: l2 := by
  induction ps with
  | nil => intro m h; exact absurd h (by simp)
  | cons p t ih =>
    intro m h
    rw [List.find?_cons_eq_some] at h
    rcases h with ⟨hp, hpm⟩ | ⟨hp, hrec⟩
    · subst hpm
      refine ⟨[], t, rfl, by simp, ?_⟩
      show addToFirstImpostor d (p :: t) = { p with score := p.score + d } :: t
      unfold addToFirstImpostor
      rw [if_pos hp]
    · have hpf : (p.role == some Role.impostor) = false := by simpa using hp
      obtain ⟨l1, l2, he, hni, hadd⟩ := ih m hrec
      refine ⟨p :: l1, l2, by rw [List.cons_append, ← he], ?_, ?_⟩
      · intro q hq
        rcases List.mem_cons.mp hq with h1 | h1
        · subst h1
          intro hc
          rw [hc] at hpf
          simp at hpf
        · exact hni q h1
      · show addToFirstImpostor d (p :: t)
          = p :: (l1 ++ { m with score := m.score + d } :: l2)
        unfold addToFirstImpostor
        rw [if_neg (by simp [hpf]), hadd]

theorem C1_resolution (ps : List Player) (m : Player)
    (himp : ps.find? (fun p => p.role == some Role.impostor) = some m) :
    resolutionSpec ps m := by
  refine ⟨accusedId_spec ps, fun t ht => accused_count_max ps t ht, ?_, ?_⟩
  · intro vp hvp hrole
    have hcalc : calculateResults ps = (ps.map (scoreDelta20 m), Winner.innocents) := by
      unfold calculateResults
      rw [hvp, himp]
      dsimp only [Option.any]
      rw [hrole]
      rw [if_pos (beq_self_eq_true _)]
      rfl
    refine ⟨by rw [hcalc], by rw [hcalc], fun hne => ?_⟩
    unfold scoreDelta20
    rw [if_neg (by simpa using hne)]
  · intro hne
    have hcalc : calculateResults ps
        = (addToFirstImpostor (30 + ps.length * 10) ps, Winner.impostor) := by
      unfold calculateResults
      cases hv : (accusedIdOf ps).bind (fun i => ps.find? (fun p => p.id == i)) with
      | none => rfl
      | some vp =>
        have hr := hne vp hv
        dsimp only
        rw [if_neg (by simpa using hr)]
    obtain ⟨l1, l2, he, hni, hadd⟩ :=
      addToFirstImpostor_decomp (30 + ps.length * 10) ps m himp
    exact ⟨by rw [hcalc], l1, l2, he, hni, by rw [hcalc, hadd]⟩

theorem C1_witness :
    fiveRoster.find? (fun p => p.role == some Role.impostor)
      = some { id := 1, username := "imp1", role := some Role.impostor } ∧
    resolutionSpec fiveRoster { id := 1, username := "imp1", role := some Role.impostor } :=
  ⟨by decide, C1_resolution fiveRoster _ (by decide)⟩

/-- C1 counterexample to the claim as stated: the impostor votes for
themselves and is accused (2 votes); winner = innocents, but the impostor's
own score moves 0 → 20, contradicting "the impostor's score is unchanged". -/
theorem C1_counterexample :
    pImp.role = some Role.impostor ∧
    pImp.score = 0 ∧
    (calculateResults [pImp, pInn]).2 = Winner.innocents ∧
    ((calculateResults [pImp, pInn]).1.map (fun p => p.score)) = [20, 20] := by decide

end Sanat
